import Mathlib

/-!
# Shallow embedding of the mini-market-thief simulation core

This file embeds the simulation/agent-behavior layer of `src/src/App.tsx`
(the complete version of the game: items, player interaction state machine,
thief state machine) into Lean 4 and proves properties about it.

Conventions of the embedding:
* JavaScript numbers are modelled as exact rationals (`ℚ`); every numeric
  literal of the source is rational (0.8 = 4/5, 0.55 = 11/20, ...).
* The source only ever uses `Math.sqrt` to *compare* a Euclidean planar
  distance against a nonnegative constant (`Math.sqrt d < r`), or to compare
  two distances with each other.  Since `Real.sqrt` is strictly monotone on
  nonnegatives, these comparisons are equivalent to comparisons of squared
  distances, which is how they are embedded (`dist2 p q < r^2`).
* `Math.random()` draws are passed in as explicit parameters (sample streams
  / index choices), making every operation a deterministic function of the
  state plus its random inputs.
* React state setters (`setItems`, `setScore`, ...) applied within one
  handler are composed into a single state-transformation function, in the
  order the source applies them.
-/

namespace MiniMarket

/-- Planar (XZ) coordinate, as used for shelf anchors (`{ x, z }` in the source). -/
structure Pt where
  x : ℚ
  z : ℚ
deriving DecidableEq, Repr

/-- A full 3D coordinate `[x, y, z]`. The y component is a derived animation
offset in the source, never consulted by game logic. -/
structure Vec3 where
  x : ℚ
  y : ℚ
  z : ℚ
deriving DecidableEq, Repr

/-- Squared planar (XZ) distance between a 3D position and a planar anchor.
`Math.sqrt (dx*dx + dz*dz) < r` in the source is embedded as `dist2 < r^2`. -/
def dist2 (p : Vec3) (q : Pt) : ℚ :=
  (p.x - q.x) * (p.x - q.x) + (p.z - q.z) * (p.z - q.z)

/-- Squared planar (XZ) distance between two 3D positions. -/
def dist2v (p q : Vec3) : ℚ :=
  (p.x - q.x) * (p.x - q.x) + (p.z - q.z) * (p.z - q.z)

/-- An entry of `ITEM_TYPES`: `{ name, color, scale }`. -/
structure ItemType where
  name : String
  color : String
  scale : Vec3
deriving DecidableEq, Repr

/-- The fixed item catalog `ITEM_TYPES` of the source. -/
def ITEM_TYPES : List ItemType :=
  [ ⟨"Cereal", "#e3c04d", ⟨1/4, 7/20, 1/5⟩⟩,
    ⟨"Milk", "#f0f0f0", ⟨1/5, 3/10, 1/5⟩⟩,
    ⟨"Soup", "#d35400", ⟨1/5, 1/4, 1/5⟩⟩,
    ⟨"Pasta", "#f39c12", ⟨1/4, 3/10, 3/20⟩⟩,
    ⟨"Beans", "#27ae60", ⟨1/5, 1/4, 1/5⟩⟩,
    ⟨"Juice", "#e74c3c", ⟨1/5, 7/20, 1/5⟩⟩ ]

/-- The fixed shelf anchors `SHELF_POSITIONS` of the source
(left and right side of the single aisle). -/
def SHELF_POSITIONS : List Pt :=
  [ ⟨-3/2, -3⟩, ⟨-3/2, -1⟩, ⟨-3/2, 1⟩, ⟨-3/2, 3⟩,
    ⟨3/2, -3⟩, ⟨3/2, -1⟩, ⟨3/2, 1⟩, ⟨3/2, 3⟩ ]

/-- An `Item` of the source: id, catalog type, 3D position, shelf flag and
the target shelf anchor assigned at spawn time. -/
structure Item where
  id : ℕ
  type : ItemType
  position : Vec3
  onShelf : Bool
  targetShelf : Pt
deriving DecidableEq, Repr

/-- `isNearItem`: planar distance below the pickup radius 0.5
(squared: 1/4). -/
def isNearItem (characterPosition : Vec3) (item : Item) : Bool :=
  dist2 characterPosition ⟨item.position.x, item.position.z⟩ < (1/2) * (1/2)

/-- `isNearShelf` with a specific `targetShelf` argument: returns the shelf
iff the planar distance to it is below the placement radius 0.8
(squared: 16/25); other shelves are not consulted. -/
def isNearShelfTarget (characterPosition : Vec3) (targetShelf : Pt) : Option Pt :=
  if dist2 characterPosition targetShelf < (4/5) * (4/5) then some targetShelf
  else none

/-- `isNearShelf` without a specific shelf: first shelf of the static list
within radius 0.8, if any. -/
def isNearShelfAny (characterPosition : Vec3) : Option Pt :=
  SHELF_POSITIONS.find? (fun shelf => dist2 characterPosition shelf < (4/5) * (4/5))

/-- `checkCollisionWithShelves`: some shelf anchor within planar distance
`SHELF_SIZE.width / 2 + CHARACTER_SIZE.radius = 0.35 + 0.2 = 0.55`
(squared: 121/400) of `(x, z)`. -/
def checkCollisionWithShelves (x z : ℚ) : Bool :=
  SHELF_POSITIONS.any (fun shelf =>
    (x - shelf.x) * (x - shelf.x) + (z - shelf.z) * (z - shelf.z) < (11/20) * (11/20))

/-! ## Spawn-position search

The source draws `x = Math.random() * 8 - 4`, `z = Math.random() * 8 - 4`
in a `do/while` loop: each draw increments `attempts`; if `attempts >= 20`
the loop breaks *before* the collision test, accepting the 20th sample
unconditionally; otherwise the draw is accepted as soon as it does not
collide with a shelf.  The random draws are modelled as a sample stream
`samples : ℕ → Pt`. -/

/-- One candidate position from a raw `Math.random()` pair `(rx, rz) ∈ [0,1)²`:
`r * bounds * 2 - bounds` with `bounds = 4`. -/
def sampleToPoint (rx rz : ℚ) : Pt :=
  ⟨rx * 8 - 4, rz * 8 - 4⟩

/-- The retry loop, with `remaining` retries left after the current draw:
at `remaining = 0` (the 20th draw) the sample is accepted unconditionally. -/
def spawnPosAux (samples : ℕ → Pt) : ℕ → ℕ → Pt
  | i, 0 => samples i
  | i, remaining + 1 =>
      if checkCollisionWithShelves (samples i).x (samples i).z then
        spawnPosAux samples (i + 1) remaining
      else samples i

/-- The whole `do/while` search: 20 draws at most (indices 0..19). -/
def findSpawnPos (samples : ℕ → Pt) : Pt :=
  spawnPosAux samples 0 19

/-! ## Game state

All React state of `GameStateProvider`, the `Character` component and the
`Thief` component that the game logic reads or writes, flattened into one
record (execution is single-threaded and frame-driven, so the combined
state is well defined at each step). -/

/-- The thief's state-machine tag (the string union of the source;
`stealing` appears in the union type but is never assigned). -/
inductive ThiefMode
  | entering
  | searching
  | stealing
  | escaping
  | waiting
  | fleeing
deriving DecidableEq, Repr

/-- The combined simulation state. -/
structure SysState where
  /-- active item collection (`items`) -/
  items : List Item
  /-- `score` -/
  score : ℕ
  /-- `playerHoldingItem` -/
  playerHeld : Option Item
  /-- `nextItemId` -/
  nextItemId : ℕ
  /-- `stolenItems` -/
  stolen : ℕ
  /-- `gameState.highlightedShelf` -/
  highlightedShelf : Option Pt
  /-- the placement guard flag (`isPlacingItem`) -/
  isPlacing : Bool
  /-- player pose position (`position` of `Character`) -/
  playerPos : Vec3
  /-- thief pose position (`position` of `Thief`) -/
  thiefPos : Vec3
  /-- `thiefState` -/
  thiefMode : ThiefMode
  /-- `targetItem` of the thief -/
  thiefTarget : Option Item
  /-- `thiefHoldingItem` -/
  thiefHeld : Option Item
  /-- `targetPosition` of the thief -/
  thiefTargetPos : Vec3
  /-- `waitTimer` -/
  waitTimer : ℚ
  /-- `fleeingCooldown` -/
  fleeingCooldown : ℚ
deriving DecidableEq, Repr

/-- Random inputs consumed by one replacement spawn: the position sample
stream of the retry loop, the shelf index `Math.floor(Math.random() * 8)`
and the type index `Math.floor(Math.random() * 6)`. -/
structure SpawnRand where
  samples : ℕ → Pt
  shelfIdx : Fin 8
  typeIdx : Fin 6

/-- The freshly spawned replacement item of the placement branch:
position `[x, 0.2, z]` from the retry loop, `onShelf = false`, random
catalog type and random target shelf, id `nextItemId`. -/
def spawnedItem (r : SpawnRand) (nextId : ℕ) : Item :=
  let p := findSpawnPos r.samples
  { id := nextId
    type := ITEM_TYPES.get ⟨r.typeIdx, r.typeIdx.isLt⟩
    position := ⟨p.x, 1/5, p.z⟩
    onShelf := false
    targetShelf := SHELF_POSITIONS.get ⟨r.shelfIdx, r.shelfIdx.isLt⟩ }

/-- `handleItemInteraction` of `Character` (App.tsx, the space-key handler):
* holding an item: if within the placement radius of *its own* target shelf,
  clear the held item and the highlighted shelf, remove the item from the
  active collection, add 10 to the score, spawn one replacement item
  (appended), bump `nextItemId`, and raise the placement guard flag
  (cleared later by a deferred timeout);
* holding nothing: pick up the first item of the collection that is not on
  a shelf and within the pickup radius, and highlight its target shelf;
  if there is none, do nothing. -/
def handleItemInteraction (r : SpawnRand) (s : SysState) : SysState :=
  match s.playerHeld with
  | some held =>
      match isNearShelfTarget s.playerPos held.targetShelf with
      | some _ =>
          let newItem := spawnedItem r s.nextItemId
          { s with
            playerHeld := none
            highlightedShelf := none
            items := s.items.filter (fun item => item.id != held.id) ++ [newItem]
            score := s.score + 10
            nextItemId := s.nextItemId + 1
            isPlacing := true }
      | none => s
  | none =>
      match s.items.find? (fun item => !item.onShelf && isNearItem s.playerPos item) with
      | some itemToPickup =>
          { s with
            playerHeld := some itemToPickup
            highlightedShelf := some itemToPickup.targetShelf }
      | none => s

/-! ## Player movement and held-item follow -/

/-- Clamp to the world bounds `[-4.5, 4.5]`
(`Math.max(-bounds, Math.min(bounds, v))` with `bounds = 4.5`). -/
def clampBound (v : ℚ) : ℚ :=
  max (-(9/2)) (min (9/2) v)

/-- Character base height constant (`baseHeight = 0.15`). -/
def baseHeight : ℚ := 3/20

/-- One player movement update of `Character`'s `useFrame` while `moving`:
the proposed point is `position + baseSpeed * (sin θ, cos θ)` for the
camera-relative movement angle θ; `sinTheta`/`cosTheta` stand for
`Math.sin(moveAngle)`/`Math.cos(moveAngle)`.  The proposed point is
rejected wholesale on shelf collision; otherwise the position is set to
the proposed point clamped to the world bounds, with y = baseHeight. -/
def characterMoveStep (pos : Vec3) (sinTheta cosTheta : ℚ) : Vec3 :=
  let newX := pos.x + sinTheta * (7/200)
  let newZ := pos.z + cosTheta * (7/200)
  if checkCollisionWithShelves newX newZ then pos
  else ⟨clampBound newX, baseHeight, clampBound newZ⟩

/-- The held-item follow update at the end of `Character`'s `useFrame`
(only run when holding an item and the placement guard is down): the held
*copy* is moved to trail 0.4 units in front of the player at the animated
height plus 0.1, but only when some coordinate moved by more than 0.01.
`sinRot`/`cosRot` stand for `Math.sin(newRotation)`/`Math.cos(newRotation)`
and `finalY` for the animated height. -/
def heldFollowStep (sinRot cosRot finalY : ℚ) (s : SysState) : SysState :=
  match s.playerHeld with
  | none => s
  | some held =>
      if s.isPlacing then s
      else
        let newPos : Vec3 :=
          ⟨s.playerPos.x + sinRot * (2/5), finalY + 1/10, s.playerPos.z + cosRot * (2/5)⟩
        let positionChanged :=
          1/100 < |held.position.x - newPos.x| ∨
          1/100 < |held.position.y - newPos.y| ∨
          1/100 < |held.position.z - newPos.z|
        if positionChanged then
          { s with playerHeld := some { held with position := newPos } }
        else s

/-! ## Thief -/

/-- `doorPosition` of the `Thief` component: with `offset = 4.5`,
`[-offset - spacing, 0.15, 3 - offset] = (-5.5, 0.15, -1.5)`. -/
def doorPosition : Vec3 := ⟨-(11/2), 3/20, -(3/2)⟩

/-- `storeEntryPoint` of the entering state: `[-offset, baseHeight, 3 - offset]`. -/
def storeEntryPoint : Vec3 := ⟨-(9/2), 3/20, -(3/2)⟩

/-- The eligible-item filter of the searching state: items not on shelves
and not currently held by the player. -/
def availableItems (items : List Item) (playerHeld : Option Item) : List Item :=
  items.filter (fun item =>
    !item.onShelf &&
      (match playerHeld with
       | none => true
       | some h => item.id != h.id))

/-- The `forEach` closest-item scan: running best item and running best
distance (`none` plays the role of the initial `Infinity`).  The source
compares square-rooted distances; `<` is embedded on squared distances. -/
def closestLoop (pos : Vec3) : List Item → Item → Option ℚ → Item
  | [], best, _ => best
  | item :: rest, best, bestD =>
      if (match bestD with
          | none => true
          | some b => decide (dist2 pos ⟨item.position.x, item.position.z⟩ < b)) then
        closestLoop pos rest item (some (dist2 pos ⟨item.position.x, item.position.z⟩))
      else
        closestLoop pos rest best bestD

/-- Closest-item selection of the searching state: `closestItem` starts as
`availableItems[0]` with `closestDistance = Infinity`, then every available
item is scanned. -/
def selectClosest (pos : Vec3) : List Item → Option Item
  | [] => none
  | a :: rest => some (closestLoop pos (a :: rest) a none)

/-- The `searching` case of the thief's state machine (one frame):
* no target: pick the closest available item as target (and head for it);
  if none is available, transition to `escaping` toward the door;
* target invalidated (player now holds it): clear the target (`break`);
* within 0.5 of the target: steal it — hold it, remove it from the active
  collection, increment the stolen count, transition to `escaping` toward
  the door;
* otherwise: no state change this frame (movement happens separately). -/
def thiefSearchStep (s : SysState) : SysState :=
  match s.thiefTarget with
  | none =>
      let avail := availableItems s.items s.playerHeld
      match selectClosest s.thiefPos avail with
      | some closestItem =>
          { s with
            thiefTarget := some closestItem
            thiefTargetPos :=
              ⟨closestItem.position.x, baseHeight, closestItem.position.z⟩ }
      | none =>
          { s with thiefMode := .escaping, thiefTargetPos := doorPosition }
  | some targetItem =>
      if (match s.playerHeld with
          | some h => h.id == targetItem.id
          | none => false) then
        { s with thiefTarget := none }
      else if dist2 s.thiefPos ⟨targetItem.position.x, targetItem.position.z⟩
          < (1/2) * (1/2) then
        { s with
          thiefHeld := some targetItem
          items := s.items.filter (fun item => item.id != targetItem.id)
          stolen := s.stolen + 1
          thiefMode := .escaping
          thiefTargetPos := doorPosition }
      else s

/-- The player-catches-thief check at the top of the thief's `useFrame`
(run when the thief is neither waiting nor fleeing and the player is
within the capture radius 0.7): a held item is dropped back into the
active collection at the thief's current position, the stolen count is
decremented (`Math.max(0, prev - 1)`, i.e. truncated subtraction on ℕ),
and the thief flees toward the door with a 5 second cooldown. -/
def thiefCaptureStep (s : SysState) : SysState :=
  let s' :=
    match s.thiefHeld with
    | some held =>
        { s with
          items := s.items ++ [{ held with position := s.thiefPos }]
          thiefHeld := none
          stolen := s.stolen - 1 }
    | none => s
  { s' with
    thiefMode := .fleeing
    thiefTargetPos := doorPosition
    fleeingCooldown := 5 }

/-- The top-of-frame target-invalidation check: the thief's target was
picked up by the player while the thief searches, so it is cleared. -/
def thiefInvalidateStep (s : SysState) : SysState :=
  { s with thiefTarget := none }

/-- The `waiting` case: count the dwell timer down by the frame delta; on
expiry transition to `entering`, reset position to the door and re-arm the
timer with 10 seconds. -/
def thiefWaitStep (delta : ℚ) (s : SysState) : SysState :=
  if s.waitTimer ≤ 0 then
    { s with thiefMode := .entering, thiefPos := doorPosition, waitTimer := 10 }
  else
    { s with waitTimer := s.waitTimer - delta }

/-- The `entering` case: head for the interior entry point; once within
0.1 of it pick a random interior point (`Math.random() * 3 - 1.5` on both
axes, raw draws `rx, rz`) and transition to `searching`. -/
def thiefEnterStep (rx rz : ℚ) (s : SysState) : SysState :=
  if dist2v s.thiefPos storeEntryPoint < (1/10) * (1/10) then
    { s with
      thiefTargetPos := ⟨rx * 3 - 3/2, baseHeight, rz * 3 - 3/2⟩
      thiefMode := .searching }
  else
    { s with thiefTargetPos := storeEntryPoint }

/-- The `escaping` case: on reaching the door (within 0.5) reset to
`waiting`, dropping target and held references and snapping to the door. -/
def thiefEscapeStep (s : SysState) : SysState :=
  if dist2v s.thiefPos doorPosition < (1/2) * (1/2) then
    { s with
      thiefMode := .waiting
      thiefTarget := none
      thiefHeld := none
      thiefPos := doorPosition }
  else s

/-- The `fleeing` case: once at the door (within 0.5) or outside the world
bounds, run the 5 second cooldown down; on expiry reset to `waiting` at
the door.  Otherwise keep heading for the door. -/
def thiefFleeStep (delta : ℚ) (s : SysState) : SysState :=
  if dist2v s.thiefPos doorPosition < (1/2) * (1/2) ∨
      9/2 < |s.thiefPos.x| ∨ 9/2 < |s.thiefPos.z| then
    if s.fleeingCooldown ≤ 0 then
      { s with
        thiefMode := .waiting
        thiefTarget := none
        thiefPos := doorPosition
        fleeingCooldown := 0 }
    else
      { s with fleeingCooldown := s.fleeingCooldown - delta }
  else
    { s with thiefTargetPos := doorPosition }

/-- The thief's movement at the end of its `useFrame` (all non-waiting
states): straight-line pursuit of `thiefTargetPos` with no collision
check.  `len` stands for `Math.sqrt(dirX² + dirZ²)`; the `Step` relation
constrains it to the true Euclidean length.  Speed 0.07 when fleeing,
0.025 otherwise. -/
def thiefMoveStep (len : ℚ) (s : SysState) : SysState :=
  if 1/10 < len then
    let speed : ℚ := if s.thiefMode = .fleeing then 7/100 else 1/40
    { s with
      thiefPos :=
        ⟨s.thiefPos.x + (s.thiefTargetPos.x - s.thiefPos.x) / len * speed,
         baseHeight,
         s.thiefPos.z + (s.thiefTargetPos.z - s.thiefPos.z) / len * speed⟩ }
  else s

/-- Player movement as a state transformation. -/
def playerMoveStep (sinTheta cosTheta : ℚ) (s : SysState) : SysState :=
  { s with playerPos := characterMoveStep s.playerPos sinTheta cosTheta }

/-- The deferred `setTimeout` reset of the placement guard flag. -/
def clearGuardStep (s : SysState) : SysState :=
  { s with isPlacing := false }

/-! ## The event-step relation

One constructor per event of the single-threaded frame loop, each carrying
the preconditions under which the source runs that code path.  `len` in
`thiefMove` is tied to the exact Euclidean planar length of the pursuit
vector (the `Math.sqrt` the source computes). -/

inductive Step : SysState → SysState → Prop
  | interact (r : SpawnRand) (s : SysState) :
      Step s (handleItemInteraction r s)
  | move (sinTheta cosTheta : ℚ) (s : SysState) :
      Step s (playerMoveStep sinTheta cosTheta s)
  | heldFollow (sinRot cosRot finalY : ℚ) (s : SysState) :
      Step s (heldFollowStep sinRot cosRot finalY s)
  | clearGuard (s : SysState) :
      Step s (clearGuardStep s)
  | capture (s : SysState)
      (h1 : s.thiefMode ≠ .waiting) (h2 : s.thiefMode ≠ .fleeing)
      (h3 : dist2v s.thiefPos s.playerPos < (7/10) * (7/10)) :
      Step s (thiefCaptureStep s)
  | invalidate (s : SysState) (tg held : Item)
      (h1 : s.thiefTarget = some tg) (h2 : s.playerHeld = some held)
      (h3 : held.id = tg.id) (h4 : s.thiefMode = .searching) :
      Step s (thiefInvalidateStep s)
  | waitTick (delta : ℚ) (s : SysState) (h : s.thiefMode = .waiting) :
      Step s (thiefWaitStep delta s)
  | enterTick (rx rz : ℚ) (s : SysState) (h : s.thiefMode = .entering) :
      Step s (thiefEnterStep rx rz s)
  | searchTick (s : SysState) (h : s.thiefMode = .searching) :
      Step s (thiefSearchStep s)
  | escapeTick (s : SysState) (h : s.thiefMode = .escaping) :
      Step s (thiefEscapeStep s)
  | fleeTick (delta : ℚ) (s : SysState) (h : s.thiefMode = .fleeing) :
      Step s (thiefFleeStep delta s)
  | thiefMove (len : ℚ) (s : SysState)
      (h1 : s.thiefMode ≠ .waiting)
      (h2 : len * len = dist2v s.thiefPos s.thiefTargetPos)
      (h3 : 0 ≤ len) :
      Step s (thiefMoveStep len s)

/-- The seeded state of `GameStateProvider` plus the two characters'
initial poses: five items with ids 0..4 (each spawned by the same retry
loop with its own random inputs), `nextItemId = 5`, empty hands, zero
score and stolen count, the player at the origin, the thief waiting at the
door with a 10 second dwell timer. -/
def initState (r : Fin 5 → SpawnRand) : SysState :=
  { items := (List.finRange 5).map (fun i => spawnedItem (r i) i.val)
    score := 0
    playerHeld := none
    nextItemId := 5
    stolen := 0
    highlightedShelf := none
    isPlacing := false
    playerPos := ⟨0, 3/20, 0⟩
    thiefPos := doorPosition
    thiefMode := .waiting
    thiefTarget := none
    thiefHeld := none
    thiefTargetPos := doorPosition
    waitTimer := 10
    fleeingCooldown := 0 }

/-- Reachability from a seeded initial state via any number of events. -/
def Reachable (r : Fin 5 → SpawnRand) (s : SysState) : Prop :=
  Relation.ReflTransGen Step (initState r) s

/-! ## The inductive invariant behind mutual exclusion -/

/-- The inductive invariant: every active item is off-shelf with an id
below the id counter; held references (player's, thief's, and the thief's
target snapshot) are off-shelf with ids below the counter; the item held
by the thief is absent from the active collection; the two agents never
hold the same id. -/
def Inv (s : SysState) : Prop :=
  (∀ it ∈ s.items, it.onShelf = false ∧ it.id < s.nextItemId) ∧
  (∀ h, s.playerHeld = some h → h.onShelf = false ∧ h.id < s.nextItemId) ∧
  (∀ t, s.thiefHeld = some t →
      t.onShelf = false ∧ t.id < s.nextItemId ∧ ∀ it ∈ s.items, it.id ≠ t.id) ∧
  (∀ h t, s.playerHeld = some h → s.thiefHeld = some t → h.id ≠ t.id) ∧
  (∀ tg, s.thiefTarget = some tg → tg.onShelf = false ∧ tg.id < s.nextItemId)

lemma spawnedItem_onShelf (r : SpawnRand) (n : ℕ) : (spawnedItem r n).onShelf = false := rfl

lemma spawnedItem_id (r : SpawnRand) (n : ℕ) : (spawnedItem r n).id = n := rfl

lemma inv_initState (r : Fin 5 → SpawnRand) : Inv (initState r) := by
  refine ⟨?_, ?_, ?_, ?_, ?_⟩ <;> intro it hit <;> simp_all [initState]
  obtain ⟨i, rfl⟩ := hit
  exact ⟨rfl, i.isLt⟩

lemma inv_interact (r : SpawnRand) (s : SysState) (hs : Inv s) :
    Inv (handleItemInteraction r s) := by
  obtain ⟨h1, h2, h3, h4, h5⟩ := hs
  cases hp : s.playerHeld with
  | some held =>
    cases hn : isNearShelfTarget s.playerPos held.targetShelf with
    | none =>
      simp only [handleItemInteraction, hp, hn]
      exact ⟨h1, h2, h3, h4, h5⟩
    | some sh =>
      simp only [handleItemInteraction, hp, hn, Inv]
      refine ⟨?_, ?_, ?_, ?_, ?_⟩
      · intro it hit
        rcases List.mem_append.mp hit with hmem | hnew
        · obtain ⟨hmem, -⟩ := List.mem_filter.mp hmem
          obtain ⟨ho, hid⟩ := h1 it hmem
          exact ⟨ho, Nat.lt_succ_of_lt hid⟩
        · rcases List.mem_singleton.mp hnew with rfl
          exact ⟨spawnedItem_onShelf r s.nextItemId, Nat.lt_succ_self _⟩
      · intro h hh
        simp at hh
      · intro t ht
        obtain ⟨ho, hid, hnot⟩ := h3 t ht
        refine ⟨ho, Nat.lt_succ_of_lt hid, ?_⟩
        intro it hit
        rcases List.mem_append.mp hit with hmem | hnew
        · exact hnot it (List.mem_filter.mp hmem).1
        · rcases List.mem_singleton.mp hnew with rfl
          rw [spawnedItem_id]
          omega
      · intro h t hh
        simp at hh
      · intro tg htg
        obtain ⟨ho, hid⟩ := h5 tg htg
        exact ⟨ho, Nat.lt_succ_of_lt hid⟩
  | none =>
    cases hf : s.items.find? (fun item => !item.onShelf && isNearItem s.playerPos item) with
    | none =>
      simp only [handleItemInteraction, hp, hf]
      exact ⟨h1, h2, h3, h4, h5⟩
    | some itemToPickup =>
      have hmem : itemToPickup ∈ s.items := List.mem_of_find?_eq_some hf
      obtain ⟨-, hid⟩ := h1 itemToPickup hmem
      have hpred := List.find?_some hf
      simp only [Bool.and_eq_true, Bool.not_eq_true'] at hpred
      simp only [handleItemInteraction, hp, hf, Inv]
      refine ⟨h1, ?_, h3, ?_, h5⟩
      · intro h hh
        rcases Option.some_inj.mp hh with rfl
        exact ⟨hpred.1, hid⟩
      · intro h t hh ht
        rcases Option.some_inj.mp hh with rfl
        exact (h3 t ht).2.2 itemToPickup hmem

lemma inv_move (sinTheta cosTheta : ℚ) (s : SysState) (hs : Inv s) :
    Inv (playerMoveStep sinTheta cosTheta s) := hs

lemma inv_heldFollow (sinRot cosRot finalY : ℚ) (s : SysState) (hs : Inv s) :
    Inv (heldFollowStep sinRot cosRot finalY s) := by
  obtain ⟨h1, h2, h3, h4, h5⟩ := hs
  cases hp : s.playerHeld with
  | none =>
    simp only [heldFollowStep, hp]
    exact ⟨h1, h2, h3, h4, h5⟩
  | some held =>
    simp only [heldFollowStep, hp]
    split
    · exact ⟨h1, h2, h3, h4, h5⟩
    · split
      · refine ⟨h1, ?_, h3, ?_, h5⟩
        · intro h hh
          rcases Option.some_inj.mp hh with rfl
          exact h2 held hp
        · intro h t hh ht
          rcases Option.some_inj.mp hh with rfl
          exact h4 held t hp ht
      · exact ⟨h1, h2, h3, h4, h5⟩

lemma inv_clearGuard (s : SysState) (hs : Inv s) : Inv (clearGuardStep s) := hs

lemma inv_capture (s : SysState) (hs : Inv s) : Inv (thiefCaptureStep s) := by
  obtain ⟨h1, h2, h3, h4, h5⟩ := hs
  cases ht : s.thiefHeld with
  | none =>
    simp only [thiefCaptureStep, ht]
    refine ⟨h1, h2, ?_, ?_, h5⟩
    · intro t htt
      simp at htt
    · intro h t hh htt
      simp at htt
  | some held =>
    obtain ⟨ho, hid, -⟩ := h3 held ht
    simp only [thiefCaptureStep, ht, Inv]
    refine ⟨?_, h2, ?_, ?_, h5⟩
    · intro it hit
      rcases List.mem_append.mp hit with hmem | hnew
      · exact h1 it hmem
      · rcases List.mem_singleton.mp hnew with rfl
        exact ⟨ho, hid⟩
    · intro t htt
      simp at htt
    · intro h t hh htt
      simp at htt

lemma inv_invalidate (s : SysState) (hs : Inv s) : Inv (thiefInvalidateStep s) := by
  obtain ⟨h1, h2, h3, h4, h5⟩ := hs
  exact ⟨h1, h2, h3, h4, by intro tg htg; simp [thiefInvalidateStep] at htg⟩

lemma inv_wait (delta : ℚ) (s : SysState) (hs : Inv s) : Inv (thiefWaitStep delta s) := by
  obtain ⟨h1, h2, h3, h4, h5⟩ := hs
  unfold thiefWaitStep
  split <;> exact ⟨h1, h2, h3, h4, h5⟩

lemma inv_enter (rx rz : ℚ) (s : SysState) (hs : Inv s) : Inv (thiefEnterStep rx rz s) := by
  obtain ⟨h1, h2, h3, h4, h5⟩ := hs
  unfold thiefEnterStep
  split <;> exact ⟨h1, h2, h3, h4, h5⟩

lemma closestLoop_mem (pos : Vec3) :
    ∀ (l : List Item) (best : Item) (bestD : Option ℚ),
      closestLoop pos l best bestD = best ∨ closestLoop pos l best bestD ∈ l := by
  intro l
  induction l with
  | nil => intro best bestD; exact Or.inl rfl
  | cons a rest ih =>
    intro best bestD
    simp only [closestLoop]
    split
    · rcases ih a (some (dist2 pos ⟨a.position.x, a.position.z⟩)) with h | h
      · rw [h]
        exact Or.inr (List.mem_cons_self _ _)
      · exact Or.inr (List.mem_cons_of_mem _ h)
    · rcases ih best bestD with h | h
      · exact Or.inl h
      · exact Or.inr (List.mem_cons_of_mem _ h)

lemma selectClosest_mem (pos : Vec3) (l : List Item) (c : Item)
    (h : selectClosest pos l = some c) : c ∈ l := by
  cases l with
  | nil => simp [selectClosest] at h
  | cons a rest =>
    simp only [selectClosest, Option.some_inj] at h
    rcases closestLoop_mem pos (a :: rest) a none with hm | hm
    · rw [← h]; rw [hm]; exact List.mem_cons_self _ _
    · rw [← h]; exact hm

lemma inv_search (s : SysState) (hs : Inv s) : Inv (thiefSearchStep s) := by
  obtain ⟨h1, h2, h3, h4, h5⟩ := hs
  cases htg : s.thiefTarget with
  | none =>
    cases hsel : selectClosest s.thiefPos (availableItems s.items s.playerHeld) with
    | none =>
      simp only [thiefSearchStep, htg, hsel]
      refine ⟨h1, h2, h3, h4, ?_⟩
      intro tg htg'
      simp at htg'
    | some closestItem =>
      have hmem := selectClosest_mem _ _ _ hsel
      obtain ⟨hmem', hpred⟩ := List.mem_filter.mp hmem
      simp only [Bool.and_eq_true, Bool.not_eq_true'] at hpred
      obtain ⟨-, hid⟩ := h1 closestItem hmem'
      simp only [thiefSearchStep, htg, hsel]
      refine ⟨h1, h2, h3, h4, ?_⟩
      intro tg htg'
      rcases Option.some_inj.mp htg' with rfl
      exact ⟨hpred.1, hid⟩
  | some targetItem =>
    simp only [thiefSearchStep, htg]
    split
    · rename_i hguard
      refine ⟨h1, h2, h3, h4, ?_⟩
      intro tg htg'
      simp at htg'
    · split
      · rename_i hguard hdist
        obtain ⟨ho, hidlt⟩ := h5 targetItem htg
        refine ⟨?_, h2, ?_, ?_, ?_⟩
        · intro it hit
          exact h1 it (List.mem_filter.mp hit).1
        · intro t htt
          rcases Option.some_inj.mp htt with rfl
          refine ⟨ho, hidlt, ?_⟩
          intro it hit
          have := (List.mem_filter.mp hit).2
          simpa using this
        · intro h t hh htt
          rcases Option.some_inj.mp htt with rfl
          intro heq
          apply hguard
          cases hp : s.playerHeld with
          | none => rw [hp] at hh; simp at hh
          | some h' =>
            rw [hp] at hh
            rcases Option.some_inj.mp hh with rfl
            simp [heq]
        · intro tg htg'
          rcases Option.some_inj.mp htg' with rfl
          exact ⟨ho, hidlt⟩
      · exact ⟨h1, h2, h3, h4, h5⟩

lemma inv_escape (s : SysState) (hs : Inv s) : Inv (thiefEscapeStep s) := by
  obtain ⟨h1, h2, h3, h4, h5⟩ := hs
  unfold thiefEscapeStep
  split
  · refine ⟨h1, h2, ?_, ?_, ?_⟩ <;> intro x hx <;> simp_all
  · exact ⟨h1, h2, h3, h4, h5⟩

lemma inv_flee (delta : ℚ) (s : SysState) (hs : Inv s) : Inv (thiefFleeStep delta s) := by
  obtain ⟨h1, h2, h3, h4, h5⟩ := hs
  unfold thiefFleeStep
  split
  · split
    · refine ⟨h1, h2, h3, h4, ?_⟩
      intro tg htg
      simp at htg
    · exact ⟨h1, h2, h3, h4, h5⟩
  · exact ⟨h1, h2, h3, h4, h5⟩

lemma inv_thiefMove (len : ℚ) (s : SysState) (hs : Inv s) : Inv (thiefMoveStep len s) := by
  obtain ⟨h1, h2, h3, h4, h5⟩ := hs
  unfold thiefMoveStep
  split <;> exact ⟨h1, h2, h3, h4, h5⟩

/-- Every event preserves the invariant. -/
lemma inv_step {s s' : SysState} (hstep : Step s s') (hs : Inv s) : Inv s' := by
  cases hstep with
  | interact r s => exact inv_interact r s hs
  | move sinTheta cosTheta s => exact inv_move sinTheta cosTheta s hs
  | heldFollow sinRot cosRot finalY s => exact inv_heldFollow sinRot cosRot finalY s hs
  | clearGuard s => exact inv_clearGuard s hs
  | capture s h1 h2 h3 => exact inv_capture s hs
  | invalidate s tg held h1 h2 h3 h4 => exact inv_invalidate s hs
  | waitTick delta s h => exact inv_wait delta s hs
  | enterTick rx rz s h => exact inv_enter rx rz s hs
  | searchTick s h => exact inv_search s hs
  | escapeTick s h => exact inv_escape s hs
  | fleeTick delta s h => exact inv_flee delta s hs
  | thiefMove len s h1 h2 h3 => exact inv_thiefMove len s hs

/-- The invariant holds in every reachable state. -/
lemma inv_reachable (r : Fin 5 → SpawnRand) (s : SysState) (h : Reachable r s) : Inv s := by
  induction h with
  | refl => exact inv_initState r
  | tail _ hstep ih => exact inv_step hstep ih

/-! ## Closest-item selection: minimality -/

/-- Squared planar distance from a position to an item (the quantity whose
square root the thief's scan compares). -/
def itemDist2 (pos : Vec3) (it : Item) : ℚ :=
  dist2 pos ⟨it.position.x, it.position.z⟩

lemma closestLoop_min (pos : Vec3) :
    ∀ (l : List Item) (best : Item),
      itemDist2 pos (closestLoop pos l best (some (itemDist2 pos best)))
          ≤ itemDist2 pos best ∧
      ∀ j ∈ l,
        itemDist2 pos (closestLoop pos l best (some (itemDist2 pos best)))
          ≤ itemDist2 pos j := by
  intro l
  induction l with
  | nil =>
    intro best
    exact ⟨le_refl _, by simp⟩
  | cons a rest ih =>
    intro best
    by_cases hlt : itemDist2 pos a < itemDist2 pos best
    · have hbr :
          closestLoop pos (a :: rest) best (some (itemDist2 pos best)) =
            closestLoop pos rest a (some (itemDist2 pos a)) := by
        simp only [closestLoop, itemDist2] at hlt ⊢
        rw [if_pos (by simpa using hlt)]
      obtain ⟨hle, hall⟩ := ih a
      rw [hbr]
      refine ⟨le_of_lt (lt_of_le_of_lt hle hlt), ?_⟩
      intro j hj
      rcases List.mem_cons.mp hj with rfl | hj'
      · exact hle
      · exact hall j hj'
    · have hbr :
          closestLoop pos (a :: rest) best (some (itemDist2 pos best)) =
            closestLoop pos rest best (some (itemDist2 pos best)) := by
        simp only [closestLoop, itemDist2] at hlt ⊢
        rw [if_neg (by simpa using hlt)]
      obtain ⟨hle, hall⟩ := ih best
      rw [hbr]
      refine ⟨hle, ?_⟩
      intro j hj
      rcases List.mem_cons.mp hj with rfl | hj'
      · exact le_trans hle (not_lt.mp hlt)
      · exact hall j hj'

lemma closestLoop_start (pos : Vec3) (a : Item) (rest : List Item) :
    closestLoop pos (a :: rest) a none =
      closestLoop pos rest a (some (itemDist2 pos a)) := by
  simp [closestLoop, itemDist2]

lemma selectClosest_min (pos : Vec3) (l : List Item) (c : Item)
    (h : selectClosest pos l = some c) :
    ∀ j ∈ l, itemDist2 pos c ≤ itemDist2 pos j := by
  cases l with
  | nil => simp [selectClosest] at h
  | cons a rest =>
    simp only [selectClosest, Option.some_inj] at h
    rw [closestLoop_start] at h
    obtain ⟨hle, hall⟩ := closestLoop_min pos rest a
    rw [h] at hle hall
    intro j hj
    rcases List.mem_cons.mp hj with rfl | hj'
    · exact hle
    · exact hall j hj'

lemma selectClosest_eq_none (pos : Vec3) (l : List Item) :
    selectClosest pos l = none ↔ l = [] := by
  cases l <;> simp [selectClosest]

/-- An item the thief may target: free-floating (not on a shelf) and not
the item currently held by the player. -/
def eligibleItem (playerHeld : Option Item) (it : Item) : Prop :=
  it.onShelf = false ∧ ∀ h, playerHeld = some h → it.id ≠ h.id

lemma mem_availableItems_iff (items : List Item) (playerHeld : Option Item) (it : Item) :
    it ∈ availableItems items playerHeld ↔ it ∈ items ∧ eligibleItem playerHeld it := by
  unfold availableItems eligibleItem
  rw [List.mem_filter]
  cases playerHeld with
  | none => simp
  | some h => simp

/-! ## Concrete fixtures for witnesses and counterexamples -/

/-- A fixed choice of spawn randomness: every position sample is the
origin (which does not collide with any shelf), shelf 0 and type 0. -/
def fixedRand : SpawnRand :=
  { samples := fun _ => ⟨0, 0⟩, shelfIdx := 0, typeIdx := 0 }

/-- A fixed choice of per-item seed randomness for the initial state. -/
def fixedInitRand : Fin 5 → SpawnRand := fun _ => fixedRand

/-- A quiet base state used to build concrete scenarios: no items, empty
hands, the player at the origin, the thief waiting at the door. -/
def baseState : SysState :=
  { items := []
    score := 0
    playerHeld := none
    nextItemId := 1
    stolen := 0
    highlightedShelf := none
    isPlacing := false
    playerPos := ⟨0, 3/20, 0⟩
    thiefPos := doorPosition
    thiefMode := .waiting
    thiefTarget := none
    thiefHeld := none
    thiefTargetPos := doorPosition
    waitTimer := 10
    fleeingCooldown := 0 }

/-- A concrete item with id 0 whose target shelf is the anchor (-1.5, -3). -/
def cerealItem : Item :=
  { id := 0
    type := ⟨"Cereal", "#e3c04d", ⟨1/4, 7/20, 1/5⟩⟩
    position := ⟨-3/2, 1/5, -23/10⟩
    onShelf := false
    targetShelf := ⟨-3/2, -3⟩ }

/-- The concrete scenario of the C1 acceptance test: the player holds
`cerealItem` (assigned to shelf (-1.5,-3)) while standing 0.7 planar units
from that anchor. -/
def holdingNearShelfState : SysState :=
  { baseState with
    items := [cerealItem]
    playerHeld := some cerealItem
    playerPos := ⟨-3/2, 3/20, -23/10⟩ }

/-! ## C9: mutual exclusion -/

/-- The mutual-exclusion property of claim C9: the two agents never hold
the same item id, held items are never `onShelf`, and (stronger) no item
of the active collection is `onShelf` at all. -/
def MutexProp (s : SysState) : Prop :=
  (∀ h t, s.playerHeld = some h → s.thiefHeld = some t → h.id ≠ t.id) ∧
  (∀ h, s.playerHeld = some h → h.onShelf = false) ∧
  (∀ t, s.thiefHeld = some t → t.onShelf = false) ∧
  (∀ it ∈ s.items, it.onShelf = false)

/-- C9 — Mutual exclusion invariant: in every reachable state, at most one
of {player, thief} holds any given item id, and no held item (nor indeed
any active item) is marked `onShelf = true`.  The thief never steals an
item the player holds (its target is invalidated instead), which is what
the inductive invariant `Inv` tracks. -/
theorem C9_mutual_exclusion (r : Fin 5 → SpawnRand) (s : SysState)
    (h : Reachable r s) : MutexProp s := by
  obtain ⟨h1, h2, h3, h4, h5⟩ := inv_reachable r s h
  exact ⟨h4, fun hh hhh => (h2 hh hhh).1, fun t ht => (h3 t ht).1,
    fun it hit => (h1 it hit).1⟩

/-- Witness for C9 at the concrete seeded initial state. -/
theorem C9_mutual_exclusion_witness : MutexProp (initState fixedInitRand) :=
  C9_mutual_exclusion fixedInitRand (initState fixedInitRand)
    Relation.ReflTransGen.refl

/-! ## C2: placement iff near the held item's own target shelf -/

/-- C2 — For every state where the player holds an item, interacting
performs a placement (score strictly increases and the hands empty) if
and only if the player is within 0.8 planar units of *that item's* target
shelf; no other shelf is consulted (`isNearShelf` is called with the held
item's `targetShelf`). -/
theorem C2_placement_iff_own_shelf (r : SpawnRand) (s : SysState) (held : Item)
    (hp : s.playerHeld = some held) :
    ((handleItemInteraction r s).score > s.score ∧
        (handleItemInteraction r s).playerHeld = none) ↔
      dist2 s.playerPos held.targetShelf < (4/5) * (4/5) := by
  constructor
  · rintro ⟨hsc, -⟩
    by_contra hfar
    have hn : isNearShelfTarget s.playerPos held.targetShelf = none := by
      simp [isNearShelfTarget, hfar]
    simp only [handleItemInteraction, hp, hn] at hsc
    exact lt_irrefl _ hsc
  · intro hnear
    have hn : isNearShelfTarget s.playerPos held.targetShelf =
        some held.targetShelf := by
      simp [isNearShelfTarget, hnear]
    refine ⟨?_, ?_⟩
    · simp only [handleItemInteraction, hp, hn]
      omega
    · simp [handleItemInteraction, hp, hn]

/-- The player in the concrete scenario stands 0.7 < 0.8 planar units
from the anchor (-1.5, -3). -/
lemma holdingNear_dist :
    dist2 holdingNearShelfState.playerPos ⟨-3/2, -3⟩ < (4/5) * (4/5) := by
  norm_num [dist2, holdingNearShelfState, baseState]

/-- Witness for C2 at the concrete holding-near-shelf scenario. -/
theorem C2_placement_iff_own_shelf_witness :
    holdingNearShelfState.playerHeld = some cerealItem ∧
    (((handleItemInteraction fixedRand holdingNearShelfState).score >
          holdingNearShelfState.score ∧
        (handleItemInteraction fixedRand holdingNearShelfState).playerHeld = none) ↔
      dist2 holdingNearShelfState.playerPos cerealItem.targetShelf < (4/5) * (4/5)) :=
  ⟨rfl, C2_placement_iff_own_shelf fixedRand holdingNearShelfState cerealItem rfl⟩

/-! ## C1: the placement scenario at shelf (-1.5, -3) -/

/-- Counterexample to C1 as stated: in the concrete scenario (player holds
`cerealItem`, assigned to shelf (-1.5,-3), standing 0.7 < 0.8 units from
that anchor), interacting does *not* mark that item `onShelf = true`: the
placed item is removed from the active collection outright (no item with
its id remains, let alone one resting at the anchor). -/
lemma holdingNear_isNearShelf :
    isNearShelfTarget holdingNearShelfState.playerPos cerealItem.targetShelf =
      some cerealItem.targetShelf := by
  unfold isNearShelfTarget
  rw [show cerealItem.targetShelf = (⟨-3/2, -3⟩ : Pt) from rfl,
    if_pos holdingNear_dist]

/-- At the fixed randomness, the interaction's resulting item collection
is exactly the one freshly spawned replacement (the placed item is gone). -/
lemma interaction_items_fixed :
    (handleItemInteraction fixedRand holdingNearShelfState).items =
      [spawnedItem fixedRand 1] := by
  simp only [handleItemInteraction,
    show holdingNearShelfState.playerHeld = some cerealItem from rfl,
    holdingNear_isNearShelf]
  simp [holdingNearShelfState, baseState, cerealItem]

theorem C1_counterexample :
    holdingNearShelfState.playerHeld = some cerealItem ∧
    cerealItem.targetShelf = ⟨-3/2, -3⟩ ∧
    dist2 holdingNearShelfState.playerPos ⟨-3/2, -3⟩ < (4/5) * (4/5) ∧
    ¬ ∃ it ∈ (handleItemInteraction fixedRand holdingNearShelfState).items,
        it.id = cerealItem.id ∧ it.onShelf = true := by
  refine ⟨rfl, rfl, holdingNear_dist, ?_⟩
  rintro ⟨it, hit, -, hshelf⟩
  rw [interaction_items_fixed, List.mem_singleton] at hit
  subst hit
  exact absurd hshelf (by simp [spawnedItem])

lemma length_filter_id_split (l : List Item) (n : ℕ) :
    (l.filter (fun it => it.id != n)).length +
      (l.filter (fun it => it.id == n)).length = l.length := by
  induction l with
  | nil => rfl
  | cons a rest ih =>
    by_cases h : a.id = n <;> simp [List.filter_cons, h] <;> omega

/-- C1, amended — in that scenario the interact operation *removes* the
held item from the active set (every item with its id is filtered out;
nothing is retained with `onShelf = true`), increases the score by exactly
10, empties the player's hands, and appends one freshly spawned item, so
the active item count is unchanged (the held id occurring exactly once). -/
theorem C1_placement_removes_and_respawns (r : SpawnRand) (s : SysState) (held : Item)
    (hp : s.playerHeld = some held)
    (htarget : held.targetShelf = ⟨-3/2, -3⟩)
    (hnear : dist2 s.playerPos ⟨-3/2, -3⟩ < (4/5) * (4/5))
    (hcount : (s.items.filter (fun it => it.id == held.id)).length = 1) :
    (handleItemInteraction r s).items =
        s.items.filter (fun it => it.id != held.id) ++ [spawnedItem r s.nextItemId] ∧
    (handleItemInteraction r s).score = s.score + 10 ∧
    (handleItemInteraction r s).playerHeld = none ∧
    (handleItemInteraction r s).items.length = s.items.length := by
  have hn : isNearShelfTarget s.playerPos held.targetShelf =
      some held.targetShelf := by
    rw [htarget]
    simp [isNearShelfTarget, hnear]
  have hsplit := length_filter_id_split s.items held.id
  simp only [handleItemInteraction, hp, hn]
  refine ⟨by trivial, by trivial, by trivial, ?_⟩
  simp only [List.length_append, List.length_singleton]
  omega

/-- Witness for the amended C1 at the concrete scenario. -/
theorem C1_placement_removes_and_respawns_witness :
    (holdingNearShelfState.playerHeld = some cerealItem ∧
      cerealItem.targetShelf = ⟨-3/2, -3⟩ ∧
      dist2 holdingNearShelfState.playerPos ⟨-3/2, -3⟩ < (4/5) * (4/5) ∧
      (holdingNearShelfState.items.filter
          (fun it => it.id == cerealItem.id)).length = 1) ∧
    (handleItemInteraction fixedRand holdingNearShelfState).score =
        holdingNearShelfState.score + 10 ∧
    (handleItemInteraction fixedRand holdingNearShelfState).playerHeld = none ∧
    (handleItemInteraction fixedRand holdingNearShelfState).items.length =
        holdingNearShelfState.items.length :=
  ⟨⟨rfl, rfl, holdingNear_dist,
      by simp [holdingNearShelfState, baseState, cerealItem]⟩,
    (C1_placement_removes_and_respawns fixedRand holdingNearShelfState cerealItem
        rfl rfl holdingNear_dist
        (by simp [holdingNearShelfState, baseState, cerealItem])).2⟩

/-! ## C7: pickup is a guarded no-op / first-match selection -/

/-- C7 — With empty hands, interacting (a) leaves the whole game state
unchanged when no off-shelf item lies within the 0.5 pickup radius, and
(b) otherwise picks up the *first* item of the collection's iteration
order satisfying that predicate (everything before it fails the
predicate; no distance ranking). -/
theorem C7_pickup_noop_or_first_match (r : SpawnRand) (s : SysState)
    (hp : s.playerHeld = none) :
    (s.items.find? (fun it => !it.onShelf && isNearItem s.playerPos it) = none →
        handleItemInteraction r s = s) ∧
    (∀ it, s.items.find? (fun j => !j.onShelf && isNearItem s.playerPos j) = some it →
        (handleItemInteraction r s).playerHeld = some it ∧
        it.onShelf = false ∧ isNearItem s.playerPos it = true ∧
        ∃ l1 l2, s.items = l1 ++ it :: l2 ∧
          ∀ j ∈ l1, ¬(j.onShelf = false ∧ isNearItem s.playerPos j = true)) := by
  constructor
  · intro hf
    simp [handleItemInteraction, hp, hf]
  · intro it hf
    obtain ⟨hpred, l1, l2, heq, hprev⟩ := List.find?_eq_some.mp hf
    simp only [Bool.and_eq_true, Bool.not_eq_true'] at hpred
    refine ⟨?_, hpred.1, hpred.2, l1, l2, heq, ?_⟩
    · simp [handleItemInteraction, hp, hf]
    · intro j hj hcontr
      have hj' := hprev j hj
      simp only [Bool.not_eq_true', Bool.and_eq_false_iff, Bool.not_eq_false'] at hj'
      rcases hj' with h | h
      · exact absurd hcontr.1 (by simp [h])
      · exact absurd hcontr.2 (by simp [h])

/-- Witness for C7, part (a): with no item in range the interaction is the
identity on the state. -/
theorem C7_pickup_noop_or_first_match_witness :
    baseState.playerHeld = none ∧
    handleItemInteraction fixedRand baseState = baseState :=
  ⟨rfl, (C7_pickup_noop_or_first_match fixedRand baseState rfl).1 rfl⟩

/-! ## C10: pickup touches only the held reference and the highlight -/

/-- C10 — A successful pickup produces exactly the old state with the
player-held reference and the highlighted-shelf field replaced (in
particular the active collection is untouched, the picked entry staying in
it off-shelf); and the per-frame held-item follow update only replaces the
held *copy*'s position, every other field — the item collection included —
being left as it was. -/
theorem C10_pickup_and_follow_touch_only_held
    (r : SpawnRand) (sinRot cosRot finalY : ℚ) (s s2 : SysState)
    (hp : s.playerHeld = none) (it : Item)
    (hf : s.items.find? (fun j => !j.onShelf && isNearItem s.playerPos j) = some it)
    (held2 : Item) (hp2 : s2.playerHeld = some held2) :
    handleItemInteraction r s =
      { s with playerHeld := some it, highlightedShelf := some it.targetShelf } ∧
    it ∈ s.items ∧ it.onShelf = false ∧
    (heldFollowStep sinRot cosRot finalY s2).items = s2.items ∧
    ∃ q, heldFollowStep sinRot cosRot finalY s2 =
        { s2 with playerHeld := some { held2 with position := q } } := by
  have hpred := List.find?_some hf
  simp only [Bool.and_eq_true, Bool.not_eq_true'] at hpred
  have heta2 : ({ s2 with playerHeld := some { held2 with position := held2.position } }
      : SysState) = s2 := by
    rw [show ({ held2 with position := held2.position } : Item) = held2 from rfl, ← hp2]
  refine ⟨?_, List.mem_of_find?_eq_some hf, hpred.1, ?_, ?_⟩
  · simp [handleItemInteraction, hp, hf]
  · simp only [heldFollowStep, hp2]
    split
    · rfl
    · split <;> rfl
  · simp only [heldFollowStep, hp2]
    split
    · exact ⟨held2.position, heta2.symm⟩
    · split
      · exact ⟨_, rfl⟩
      · exact ⟨held2.position, heta2.symm⟩

/-- A concrete off-shelf item within the 0.5 pickup radius of the origin. -/
def nearbyItem : Item :=
  { id := 7
    type := ⟨"Milk", "#f0f0f0", ⟨1/5, 3/10, 1/5⟩⟩
    position := ⟨1/5, 1/5, 0⟩
    onShelf := false
    targetShelf := ⟨3/2, 1⟩ }

/-- A concrete state with exactly that item in front of the empty-handed
player. -/
def pickupState : SysState :=
  { baseState with items := [nearbyItem] }

lemma pickup_find :
    pickupState.items.find?
        (fun j => !j.onShelf && isNearItem pickupState.playerPos j) = some nearbyItem := by
  have hnear : isNearItem pickupState.playerPos nearbyItem = true := by
    simp only [isNearItem, decide_eq_true_eq]
    norm_num [dist2, pickupState, baseState, nearbyItem]
  show List.find? _ [nearbyItem] = some nearbyItem
  rw [List.find?_cons_of_pos]
  simp only [Bool.and_eq_true, Bool.not_eq_true']
  exact ⟨rfl, hnear⟩

/-- Witness for C10 at the concrete pickup scenario (and the held-follow
at the concrete holding scenario). -/
theorem C10_pickup_and_follow_touch_only_held_witness :
    (pickupState.playerHeld = none ∧
      holdingNearShelfState.playerHeld = some cerealItem) ∧
    handleItemInteraction fixedRand pickupState =
      { pickupState with
        playerHeld := some nearbyItem
        highlightedShelf := some nearbyItem.targetShelf } ∧
    (heldFollowStep 0 1 (3/20) holdingNearShelfState).items =
        holdingNearShelfState.items ∧
    ∃ q, heldFollowStep 0 1 (3/20) holdingNearShelfState =
        { holdingNearShelfState with
          playerHeld := some { cerealItem with position := q } } := by
  obtain ⟨ha, -, -, hb, hc⟩ :=
    C10_pickup_and_follow_touch_only_held fixedRand 0 1 (3/20)
      pickupState holdingNearShelfState rfl nearbyItem pickup_find cerealItem rfl
  exact ⟨⟨rfl, rfl⟩, ha, hb, hc⟩

/-! ## C8: the rejection-sampling spawn-position search -/

lemma spawnPosAux_spec (samples : ℕ → Pt) :
    ∀ (rem i : ℕ), ∃ d, d ≤ rem ∧
      spawnPosAux samples i rem = samples (i + d) ∧
      (∀ e < d, checkCollisionWithShelves (samples (i + e)).x (samples (i + e)).z = true) ∧
      (d < rem →
        checkCollisionWithShelves (samples (i + d)).x (samples (i + d)).z = false) := by
  intro rem
  induction rem with
  | zero =>
    intro i
    refine ⟨0, le_refl _, by simp [spawnPosAux], ?_, ?_⟩
    · intro e he
      omega
    · intro h
      omega
  | succ rem ih =>
    intro i
    by_cases hc : checkCollisionWithShelves (samples i).x (samples i).z = true
    · obtain ⟨d, hd, heq, hall, hlast⟩ := ih (i + 1)
      refine ⟨d + 1, by omega, ?_, ?_, ?_⟩
      · rw [spawnPosAux, if_pos hc, heq]
        congr 1
        omega
      · intro e he
        cases e with
        | zero => simpa using hc
        | succ e' =>
          have : i + (e' + 1) = i + 1 + e' := by omega
          rw [this]
          exact hall e' (by omega)
      · intro h
        have : i + (d + 1) = i + 1 + d := by omega
        rw [this]
        exact hlast (by omega)
    · refine ⟨0, by omega, ?_, ?_, ?_⟩
      · simp [spawnPosAux, hc]
      · intro e he
        omega
      · intro h
        simpa using hc

/-- C8 — The spawn-position search makes at most 20 draws (indices 0..19):
it returns the first sample that does not collide with a shelf; every
earlier sample collided; and if the cap is exhausted (k = 19) the last
sample is returned unconditionally.  Being a total function, it never
fails.  Each raw draw `r ∈ [0,1)` maps to a coordinate in `[-4, 4)`. -/
theorem C8_spawn_search (samples : ℕ → Pt) :
    (∃ k, k ≤ 19 ∧ findSpawnPos samples = samples k ∧
      (∀ e < k, checkCollisionWithShelves (samples e).x (samples e).z = true) ∧
      (k < 19 → checkCollisionWithShelves (samples k).x (samples k).z = false)) ∧
    (∀ rx rz : ℚ, 0 ≤ rx → rx < 1 → 0 ≤ rz → rz < 1 →
      (-4 ≤ (sampleToPoint rx rz).x ∧ (sampleToPoint rx rz).x < 4 ∧
       -4 ≤ (sampleToPoint rx rz).z ∧ (sampleToPoint rx rz).z < 4)) := by
  constructor
  · obtain ⟨d, hd, heq, hall, hlast⟩ := spawnPosAux_spec samples 19 0
    simp only [Nat.zero_add] at heq hall hlast
    exact ⟨d, hd, heq, hall, hlast⟩
  · intro rx rz h1 h2 h3 h4
    unfold sampleToPoint
    dsimp only
    refine ⟨by linarith, by linarith, by linarith, by linarith⟩

/-- Witness for C8, instantiating the range statement at the concrete
draw (1/2, 1/2) and exhibiting the search result for the constant
origin sample stream. -/
theorem C8_spawn_search_witness :
    ((0:ℚ) ≤ 1/2 ∧ (1/2:ℚ) < 1) ∧
    (-4 ≤ (sampleToPoint (1/2) (1/2)).x ∧ (sampleToPoint (1/2) (1/2)).x < 4 ∧
     -4 ≤ (sampleToPoint (1/2) (1/2)).z ∧ (sampleToPoint (1/2) (1/2)).z < 4) :=
  ⟨⟨by norm_num, by norm_num⟩,
    (C8_spawn_search (fun _ => ⟨0, 0⟩)).2 (1/2) (1/2)
      (by norm_num) (by norm_num) (by norm_num) (by norm_num)⟩

/-! ## C4: wholesale rejection of colliding moves -/

lemma checkCollision_iff (x z : ℚ) :
    checkCollisionWithShelves x z = true ↔
      ∃ shelf ∈ SHELF_POSITIONS,
        (x - shelf.x) * (x - shelf.x) + (z - shelf.z) * (z - shelf.z) <
          (11/20) * (11/20) := by
  simp [checkCollisionWithShelves, List.any_eq_true]

lemma c4_noncolliding :
    checkCollisionWithShelves ((449:ℚ)/100 + 7/200) 0 = false := by
  rw [← Bool.not_eq_true, checkCollision_iff]
  rintro ⟨shelf, hmem, hlt⟩
  fin_cases hmem <;> norm_num at hlt

lemma c4_eval :
    characterMoveStep ⟨449/100, 3/20, 0⟩ 1 0 = ⟨9/2, 3/20, 0⟩ := by
  have hx : clampBound ((449:ℚ)/100 + 1 * (7/200)) = 9/2 := by
    rw [clampBound, min_eq_left (by norm_num), max_eq_right (by norm_num)]
  have hz : clampBound ((0:ℚ) + 0 * (7/200)) = 0 := by
    rw [clampBound, min_eq_right (by norm_num), max_eq_right (by norm_num)]
    norm_num
  simp only [characterMoveStep]
  rw [if_neg (by simp [c4_noncolliding])]
  rw [hx, hz]
  rfl

/-- Counterexample to C4 as stated: from position x = 4.49 a rightward
step proposes x = 4.525, which collides with no shelf, yet the resulting
position is the clamped (4.5, 0), not the proposed point. -/
theorem C4_counterexample :
    checkCollisionWithShelves ((449:ℚ)/100 + 1 * (7/200)) ((0:ℚ) + 0 * (7/200)) = false ∧
    characterMoveStep ⟨449/100, 3/20, 0⟩ 1 0 ≠
      ⟨449/100 + 1 * (7/200), 3/20, 0 + 0 * (7/200)⟩ := by
  refine ⟨?_, ?_⟩
  · rw [show ((449:ℚ)/100 + 1 * (7/200)) = 449/100 + 7/200 by norm_num,
      show ((0:ℚ) + 0 * (7/200)) = 0 by norm_num]
    exact c4_noncolliding
  · rw [c4_eval]
    intro heq
    have hx := congrArg Vec3.x heq
    norm_num at hx

/-- C4, amended — a proposed move within 0.55 planar units of any shelf
anchor leaves the position entirely unchanged (no sliding or clamping
toward the obstacle); otherwise the position becomes the proposed point
clamped to the world bounds [-4.5, 4.5] on both planar axes (with y reset
to the base height). -/
theorem C4_move_rejected_or_clamped (pos : Vec3) (sinTheta cosTheta : ℚ) :
    ((∃ shelf ∈ SHELF_POSITIONS,
        (pos.x + sinTheta * (7/200) - shelf.x) * (pos.x + sinTheta * (7/200) - shelf.x) +
          (pos.z + cosTheta * (7/200) - shelf.z) * (pos.z + cosTheta * (7/200) - shelf.z) <
          (11/20) * (11/20)) →
      characterMoveStep pos sinTheta cosTheta = pos) ∧
    ((∀ shelf ∈ SHELF_POSITIONS,
        ¬((pos.x + sinTheta * (7/200) - shelf.x) * (pos.x + sinTheta * (7/200) - shelf.x) +
            (pos.z + cosTheta * (7/200) - shelf.z) * (pos.z + cosTheta * (7/200) - shelf.z) <
            (11/20) * (11/20))) →
      characterMoveStep pos sinTheta cosTheta =
        ⟨clampBound (pos.x + sinTheta * (7/200)), baseHeight,
          clampBound (pos.z + cosTheta * (7/200))⟩) := by
  constructor
  · intro hex
    have hc : checkCollisionWithShelves (pos.x + sinTheta * (7/200))
        (pos.z + cosTheta * (7/200)) = true := (checkCollision_iff _ _).mpr hex
    simp only [characterMoveStep]
    rw [if_pos hc]
  · intro hall
    have hc : checkCollisionWithShelves (pos.x + sinTheta * (7/200))
        (pos.z + cosTheta * (7/200)) ≠ true := by
      intro htrue
      obtain ⟨shelf, hmem, hlt⟩ := (checkCollision_iff _ _).mp htrue
      exact hall shelf hmem hlt
    simp only [characterMoveStep]
    rw [if_neg hc]

/-- Witness for the amended C4 at the concrete boundary scenario. -/
theorem C4_move_rejected_or_clamped_witness :
    (∀ shelf ∈ SHELF_POSITIONS,
      ¬(((449:ℚ)/100 + 1 * (7/200) - shelf.x) * ((449:ℚ)/100 + 1 * (7/200) - shelf.x) +
          ((0:ℚ) + 0 * (7/200) - shelf.z) * ((0:ℚ) + 0 * (7/200) - shelf.z) <
          (11/20) * (11/20))) ∧
    characterMoveStep ⟨449/100, 3/20, 0⟩ 1 0 =
      ⟨clampBound ((449:ℚ)/100 + 1 * (7/200)), baseHeight,
        clampBound ((0:ℚ) + 0 * (7/200))⟩ := by
  have hall : ∀ shelf ∈ SHELF_POSITIONS,
      ¬(((449:ℚ)/100 + 1 * (7/200) - shelf.x) * ((449:ℚ)/100 + 1 * (7/200) - shelf.x) +
          ((0:ℚ) + 0 * (7/200) - shelf.z) * ((0:ℚ) + 0 * (7/200) - shelf.z) <
          (11/20) * (11/20)) := by
    intro shelf hmem
    fin_cases hmem <;> norm_num
  exact ⟨hall, (C4_move_rejected_or_clamped ⟨449/100, 3/20, 0⟩ 1 0).2 hall⟩

/-! ## C5: bounds

The player's movement clamps to [-4.5, 4.5]; the thief's does not (and its
door anchor lies at x = -5.5, outside those bounds). -/

lemma interact_playerPos (r : SpawnRand) (s : SysState) :
    (handleItemInteraction r s).playerPos = s.playerPos := by
  unfold handleItemInteraction
  split
  · split <;> rfl
  · split <;> rfl

lemma heldFollow_playerPos (sinRot cosRot finalY : ℚ) (s : SysState) :
    (heldFollowStep sinRot cosRot finalY s).playerPos = s.playerPos := by
  unfold heldFollowStep
  split
  · rfl
  · split
    · rfl
    · dsimp only
      split <;> rfl

lemma capture_playerPos (s : SysState) :
    (thiefCaptureStep s).playerPos = s.playerPos := by
  unfold thiefCaptureStep
  split <;> rfl

lemma search_playerPos (s : SysState) :
    (thiefSearchStep s).playerPos = s.playerPos := by
  unfold thiefSearchStep
  split
  · dsimp only
    split <;> rfl
  · split
    · rfl
    · split <;> rfl

lemma wait_playerPos (delta : ℚ) (s : SysState) :
    (thiefWaitStep delta s).playerPos = s.playerPos := by
  unfold thiefWaitStep
  split <;> rfl

lemma enter_playerPos (rx rz : ℚ) (s : SysState) :
    (thiefEnterStep rx rz s).playerPos = s.playerPos := by
  unfold thiefEnterStep
  split <;> rfl

lemma escape_playerPos (s : SysState) :
    (thiefEscapeStep s).playerPos = s.playerPos := by
  unfold thiefEscapeStep
  split <;> rfl

lemma flee_playerPos (delta : ℚ) (s : SysState) :
    (thiefFleeStep delta s).playerPos = s.playerPos := by
  unfold thiefFleeStep
  split
  · split <;> rfl
  · rfl

lemma thiefMove_playerPos (len : ℚ) (s : SysState) :
    (thiefMoveStep len s).playerPos = s.playerPos := by
  unfold thiefMoveStep
  split <;> rfl

/-- The clamp always lands in [-4.5, 4.5]. -/
lemma clampBound_le (v : ℚ) : -(9/2) ≤ clampBound v ∧ clampBound v ≤ 9/2 :=
  ⟨le_max_left _ _, max_le (by norm_num) (min_le_left _ _)⟩

/-- The player's planar coordinates stay within the world bounds. -/
def PlayerInBounds (s : SysState) : Prop :=
  -(9/2) ≤ s.playerPos.x ∧ s.playerPos.x ≤ 9/2 ∧
  -(9/2) ≤ s.playerPos.z ∧ s.playerPos.z ≤ 9/2

lemma playerInBounds_step {s s' : SysState} (hstep : Step s s')
    (h : PlayerInBounds s) : PlayerInBounds s' := by
  cases hstep with
  | move sinTheta cosTheta s =>
    unfold PlayerInBounds playerMoveStep at *
    dsimp only
    unfold characterMoveStep
    dsimp only
    split
    · exact h
    · exact ⟨(clampBound_le _).1, (clampBound_le _).2,
        (clampBound_le _).1, (clampBound_le _).2⟩
  | interact r s =>
    unfold PlayerInBounds at *
    rw [interact_playerPos]
    exact h
  | heldFollow sinRot cosRot finalY s =>
    unfold PlayerInBounds at *
    rw [heldFollow_playerPos]
    exact h
  | clearGuard s => exact h
  | capture s h1 h2 h3 =>
    unfold PlayerInBounds at *
    rw [capture_playerPos]
    exact h
  | invalidate s tg held h1 h2 h3 h4 => exact h
  | waitTick delta s hm =>
    unfold PlayerInBounds at *
    rw [wait_playerPos]
    exact h
  | enterTick rx rz s hm =>
    unfold PlayerInBounds at *
    rw [enter_playerPos]
    exact h
  | searchTick s hm =>
    unfold PlayerInBounds at *
    rw [search_playerPos]
    exact h
  | escapeTick s hm =>
    unfold PlayerInBounds at *
    rw [escape_playerPos]
    exact h
  | fleeTick delta s hm =>
    unfold PlayerInBounds at *
    rw [flee_playerPos]
    exact h
  | thiefMove len s h1 h2 h3 =>
    unfold PlayerInBounds at *
    rw [thiefMove_playerPos]
    exact h

/-- Counterexample to C5 as stated: one tick after the start (a waiting
tick of the thief), the thief — one of the two characters — stands at the
door anchor x = -5.5, outside [-4.5, 4.5]; the thief's movement is never
clamped. -/
theorem C5_counterexample :
    Reachable fixedInitRand (thiefWaitStep 1 (initState fixedInitRand)) ∧
    (thiefWaitStep 1 (initState fixedInitRand)).thiefPos.x < -(9/2) := by
  constructor
  · exact Relation.ReflTransGen.tail Relation.ReflTransGen.refl
      (Step.waitTick 1 _ rfl)
  · unfold thiefWaitStep
    rw [if_neg (by norm_num [initState])]
    norm_num [initState, doorPosition]

/-- C5, amended — after every tick the *player's* position coordinates are
within [-4.5, 4.5] on both planar axes (the movement clamp guarantees it
from the in-bounds start); the thief is exempt: its position is never
clamped and its door anchor lies at x = -5.5. -/
theorem C5_player_in_bounds (r : Fin 5 → SpawnRand) (s : SysState)
    (h : Reachable r s) :
    -(9/2) ≤ s.playerPos.x ∧ s.playerPos.x ≤ 9/2 ∧
    -(9/2) ≤ s.playerPos.z ∧ s.playerPos.z ≤ 9/2 := by
  have : PlayerInBounds s := by
    induction h with
    | refl => exact ⟨by norm_num [initState], by norm_num [initState],
        by norm_num [initState], by norm_num [initState]⟩
    | tail _ hstep ih => exact playerInBounds_step hstep ih
  exact this

/-- Witness for the amended C5 at the seeded initial state. -/
theorem C5_player_in_bounds_witness :
    -(9/2) ≤ (initState fixedInitRand).playerPos.x ∧
    (initState fixedInitRand).playerPos.x ≤ 9/2 ∧
    -(9/2) ≤ (initState fixedInitRand).playerPos.z ∧
    (initState fixedInitRand).playerPos.z ≤ 9/2 :=
  C5_player_in_bounds fixedInitRand (initState fixedInitRand)
    Relation.ReflTransGen.refl

/-! ## C6: nearest-eligible-item targeting -/

/-- C6 — In the searching state with no current target: if some eligible
item exists (off-shelf and not player-held) the thief targets one of
minimal planar distance (and heads for it); if none exists it transitions
to escaping with the door as movement target. -/
theorem C6_nearest_target_selection (s : SysState)
    (hmode : s.thiefMode = .searching) (htg : s.thiefTarget = none) :
    ((∃ j ∈ s.items, eligibleItem s.playerHeld j) →
      ∃ c, (thiefSearchStep s).thiefTarget = some c ∧
        c ∈ s.items ∧ eligibleItem s.playerHeld c ∧
        (thiefSearchStep s).thiefTargetPos =
          ⟨c.position.x, baseHeight, c.position.z⟩ ∧
        ∀ j ∈ s.items, eligibleItem s.playerHeld j →
          itemDist2 s.thiefPos c ≤ itemDist2 s.thiefPos j) ∧
    ((∀ j ∈ s.items, ¬eligibleItem s.playerHeld j) →
      (thiefSearchStep s).thiefMode = .escaping ∧
      (thiefSearchStep s).thiefTargetPos = doorPosition) := by
  constructor
  · rintro ⟨j, hj, hel⟩
    have hjav : j ∈ availableItems s.items s.playerHeld :=
      (mem_availableItems_iff _ _ _).mpr ⟨hj, hel⟩
    cases hsel : selectClosest s.thiefPos (availableItems s.items s.playerHeld) with
    | none =>
      rw [selectClosest_eq_none] at hsel
      rw [hsel] at hjav
      simp at hjav
    | some c =>
      have hcmem := selectClosest_mem _ _ _ hsel
      have hcmin := selectClosest_min _ _ _ hsel
      obtain ⟨hcmem', hcel⟩ := (mem_availableItems_iff _ _ _).mp hcmem
      refine ⟨c, ?_, hcmem', hcel, ?_, ?_⟩
      · simp [thiefSearchStep, htg, hsel]
      · simp [thiefSearchStep, htg, hsel]
      · intro j' hj' hel'
        exact hcmin j' ((mem_availableItems_iff _ _ _).mpr ⟨hj', hel'⟩)
  · intro hno
    have hav : availableItems s.items s.playerHeld = [] := by
      rw [List.eq_nil_iff_forall_not_mem]
      intro x hx
      obtain ⟨hx1, hx2⟩ := (mem_availableItems_iff _ _ _).mp hx
      exact hno x hx1 hx2
    have hsel : selectClosest s.thiefPos (availableItems s.items s.playerHeld) = none := by
      rw [hav]
      rfl
    constructor <;> simp [thiefSearchStep, htg, hsel]

/-- A concrete searching state with an empty shop floor. -/
def searchingEmptyState : SysState :=
  { baseState with thiefMode := .searching }

/-- Witness for C6, escape side: no eligible item, so the thief heads for
the door in escaping mode. -/
theorem C6_nearest_target_selection_witness :
    (∀ j ∈ searchingEmptyState.items, ¬eligibleItem searchingEmptyState.playerHeld j) ∧
    (thiefSearchStep searchingEmptyState).thiefMode = .escaping ∧
    (thiefSearchStep searchingEmptyState).thiefTargetPos = doorPosition := by
  have hno : ∀ j ∈ searchingEmptyState.items,
      ¬eligibleItem searchingEmptyState.playerHeld j := by
    intro j hj
    simp [searchingEmptyState, baseState] at hj
  exact ⟨hno,
    (C6_nearest_target_selection searchingEmptyState rfl rfl).2 hno⟩

/-! ## C3: theft/recovery round trip -/

/-- C3 — If the thief steals its target (searching state, target within
0.5, target not held by the player), the stolen count becomes its
pre-theft value plus one and the item leaves the active set; and if the
player later captures the thief in any state `s2` in which the thief still
holds that item and the stolen count is as the theft left it, the item is
reinserted into the active set at the thief's current position with
`onShelf = false` and the stolen count returns exactly to its pre-theft
value. -/
theorem C3_theft_recovery_round_trip (s s2 : SysState) (tg : Item)
    (hmode : s.thiefMode = .searching)
    (htg : s.thiefTarget = some tg)
    (honShelf : tg.onShelf = false)
    (hguard : ∀ h, s.playerHeld = some h → h.id ≠ tg.id)
    (hnear : dist2 s.thiefPos ⟨tg.position.x, tg.position.z⟩ < (1/2) * (1/2))
    (hheld2 : s2.thiefHeld = (thiefSearchStep s).thiefHeld)
    (hstolen2 : s2.stolen = (thiefSearchStep s).stolen)
    (hmode2 : s2.thiefMode ≠ .waiting) (hmode2f : s2.thiefMode ≠ .fleeing)
    (hcapture : dist2v s2.thiefPos s2.playerPos < (7/10) * (7/10)) :
    (thiefSearchStep s).stolen = s.stolen + 1 ∧
    (thiefSearchStep s).thiefHeld = some tg ∧
    (∀ it ∈ (thiefSearchStep s).items, it.id ≠ tg.id) ∧
    ({ tg with position := s2.thiefPos } : Item) ∈ (thiefCaptureStep s2).items ∧
    ({ tg with position := s2.thiefPos } : Item).onShelf = false ∧
    (thiefCaptureStep s2).stolen = s.stolen ∧
    (thiefCaptureStep s2).thiefHeld = none := by
  have gb : ¬((match s.playerHeld with
      | some h => h.id == tg.id
      | none => false) = true) := by
    cases hp : s.playerHeld with
    | none => simp
    | some h =>
      simp only [beq_iff_eq]
      exact hguard h hp
  have hsteal : thiefSearchStep s =
      { s with
        thiefHeld := some tg
        items := s.items.filter (fun item => item.id != tg.id)
        stolen := s.stolen + 1
        thiefMode := .escaping
        thiefTargetPos := doorPosition } := by
    simp only [thiefSearchStep, htg]
    rw [if_neg gb, if_pos hnear]
  rw [hsteal] at hheld2 hstolen2
  refine ⟨by rw [hsteal], by rw [hsteal], ?_, ?_, honShelf, ?_, ?_⟩
  · intro it hit
    rw [hsteal] at hit
    have := (List.mem_filter.mp hit).2
    simpa using this
  · simp only [thiefCaptureStep, hheld2]
    exact List.mem_append_right _ (List.mem_singleton_self _)
  · have h2 : s2.stolen = s.stolen + 1 := by simpa using hstolen2
    simp only [thiefCaptureStep, hheld2]
    omega
  · simp only [thiefCaptureStep, hheld2]

/-- A concrete item targeted by the thief. -/
def targetedItem : Item :=
  { id := 3
    type := ⟨"Soup", "#d35400", ⟨1/5, 1/4, 1/5⟩⟩
    position := ⟨-1/2, 1/5, 0⟩
    onShelf := false
    targetShelf := ⟨3/2, -1⟩ }

/-- A concrete searching state with the thief 0.2 planar units from its
target item and a pre-theft stolen count of 2. -/
def stealState : SysState :=
  { baseState with
    items := [targetedItem]
    nextItemId := 4
    stolen := 2
    thiefMode := .searching
    thiefTarget := some targetedItem
    thiefPos := ⟨-1/2, 3/20, 1/5⟩
    thiefTargetPos := ⟨-1/2, 3/20, 0⟩ }

lemma stealState_eval :
    thiefSearchStep stealState =
      { stealState with
        thiefHeld := some targetedItem
        items := []
        stolen := 3
        thiefMode := .escaping
        thiefTargetPos := doorPosition } := by
  have gb : ¬((match stealState.playerHeld with
      | some h => h.id == targetedItem.id
      | none => false) = true) := by
    simp [stealState, baseState]
  have hnear : dist2 stealState.thiefPos
      ⟨targetedItem.position.x, targetedItem.position.z⟩ < (1/2) * (1/2) := by
    norm_num [dist2, stealState, baseState, targetedItem]
  simp only [thiefSearchStep,
    show stealState.thiefTarget = some targetedItem from rfl]
  rw [if_neg gb, if_pos hnear]
  simp [stealState, baseState, targetedItem]

/-- Witness for C3 at the concrete steal-then-capture scenario. -/
theorem C3_theft_recovery_round_trip_witness :
    (thiefSearchStep stealState).stolen = stealState.stolen + 1 ∧
    (thiefSearchStep stealState).thiefHeld = some targetedItem ∧
    (∀ it ∈ (thiefSearchStep stealState).items, it.id ≠ targetedItem.id) ∧
    ({ targetedItem with position := (thiefSearchStep stealState).thiefPos } : Item) ∈
        (thiefCaptureStep (thiefSearchStep stealState)).items ∧
    ({ targetedItem with
        position := (thiefSearchStep stealState).thiefPos } : Item).onShelf = false ∧
    (thiefCaptureStep (thiefSearchStep stealState)).stolen = stealState.stolen ∧
    (thiefCaptureStep (thiefSearchStep stealState)).thiefHeld = none :=
  C3_theft_recovery_round_trip stealState (thiefSearchStep stealState) targetedItem
    rfl rfl rfl
    (by intro h hh; simp [stealState, baseState] at hh)
    (by norm_num [dist2, stealState, baseState, targetedItem])
    rfl rfl
    (by rw [stealState_eval]; simp)
    (by rw [stealState_eval]; simp)
    (by rw [stealState_eval]
        norm_num [dist2v, stealState, baseState, doorPosition])

end MiniMarket
